import Mathlib

/-!
Verification development for the rcube_Ios client (grib.js, route.js, wind layer).

The JavaScript source is shallowly embedded: numbers are modelled as rationals
(JS arithmetic on the values involved is exact for the cases below), the
`Float32Array` buffer is a `List ℚ`, JS `undefined` reads are `Option.none`,
thrown exceptions are `Except.error`, and the asynchronous fetches are passed
in as explicit response parameters.  State mutated by the code (the grib cache,
the module-level `gribLimits` object, the playback controller) is threaded
explicitly.
-/

/-- Metadata of a grib file as returned by the `REQ.GRIB` request and kept in
the module-level `gribLimits` object (`grib.js`).  Only the fields read by the
embedded code are modelled. -/
structure GribMeta where
  epochStart : ℚ
  nTimeStamp : Nat
  timeStamps : List ℚ
  nLat : Nat
  nLon : Nat
  nShortName : Nat
  name : String
deriving DecidableEq

/-- The decoded field object returned by `gribLoad` (`grib.js` line 363):
the raw float buffer plus the dimensions and the component flags derived
from the `X-Shortnames` header. -/
structure GribField where
  values : List ℚ
  nLat : Nat
  nLon : Nat
  nTime : Nat
  nShortName : Nat
  hasG : Bool
  hasW : Bool
  shortnames : String
deriving DecidableEq

/-- The record returned by `getUVGW`.  A component read out of the buffer's
range is JS `undefined`, modelled as `none`; an in-range read of value `x` is
`some x`. -/
structure UVGW where
  u : Option ℚ
  v : Option ℚ
  g : Option ℚ
  w : Option ℚ
deriving DecidableEq

/-- Embedding of `indexOf` (`grib.js` lines 332-334): base index into the flat buffer for
`(tIndex, iLat, iLon)`; order is time, then latitude, then longitude, then
component. -/
def indexOf (f : GribField) (tIndex iLat iLon : Nat) : Nat :=
  ((tIndex * f.nLat + iLat) * f.nLon + iLon) * f.nShortName

/-- Embedding of `getUVGW` (`grib.js` lines 344-361): read u/v/(g)/(w) at a grid point.
In JS, `values[idx]` past the end of a `Float32Array` is `undefined`; the
`get?` access returns `none` there.  Components absent from the header are
left at their initial value `0`. -/
def getUVGW (f : GribField) (tIndex iLat iLon : Nat) : UVGW :=
  let idx := indexOf f tIndex iLat iLon
  { u := f.values.get? idx
    v := f.values.get? (idx + 1)
    g := if f.hasG then f.values.get? (idx + 2) else some 0
    w := if f.hasW then f.values.get? (idx + (if f.hasG then 3 else 2)) else some 0 }

/-- Embedding of `gribLoad` (`grib.js` lines 286-364), from the point where the response is
available: `shortnamesStr` is the `X-Shortnames` header (`none` when missing),
`buf` the decoded float buffer.  The component count is derived from the
header (`u`/`v` always counted, `g` and `w` adding one slot each; the JS
`includes("g")` substring test on the one-character string is character
membership, `s.data.contains`); `nName`
(the count from the separately fetched meta) only produces a console warning
on mismatch and does not affect the result.  A buffer length different from
`nTime * nLat * nLon * nShortName` is a thrown error. -/
def gribLoad (shortnamesStr : Option String) (nTime nLat nLon nName : Nat)
    (buf : List ℚ) : Except String GribField :=
  match shortnamesStr with
  | none => .error "Missing X-Shortnames header"
  | some s =>
      let hasG := s.data.contains 'g'
      let hasW := s.data.contains 'w'
      let nShortName := 2 + (if hasG then 1 else 0) + (if hasW then 1 else 0)
      if buf.length = nTime * nLat * nLon * nShortName then
        .ok { values := buf, nLat := nLat, nLon := nLon, nTime := nTime,
              nShortName := nShortName, hasG := hasG, hasW := hasW,
              shortnames := s }
      else
        .error "gribLoad: unexpected size"

/-- Concrete field used to witness out-of-range sampling: an empty buffer. -/
def fieldEmpty : GribField :=
  { values := [], nLat := 1, nLon := 1, nTime := 1, nShortName := 2,
    hasG := false, hasW := false, shortnames := "uv" }

/-- Concrete decoded field (components u,v; one grid point, one time step). -/
def fieldUV : GribField :=
  { values := [3, 7], nLat := 1, nLon := 1, nTime := 1, nShortName := 2,
    hasG := false, hasW := false, shortnames := "uv" }

/- =====================  TimeIndexResolver (wind layer)  ===================== -/

/-- Loop body of `findTimeAround` (wind layer, part_001 lines 983-987): scan
`k = 0..n-1`; on exact match return `(k, k)`; on the first step exceeding the
target return `(k-1, k)`; if the loop completes return `(n-1, n-1)`.
Subtraction is JS number subtraction, but `k - 1` only occurs for `k ≥ 1`
because the caller has already returned `(0, 0)` when the target is below the
first step, so `Nat` subtraction agrees. -/
def findTimeAroundAux (ts : List ℚ) (n : Nat) (tHours : ℚ) (k : Nat) : Nat × Nat :=
  if h : k < n then
    if tHours = ts.getD k 0 then (k, k)
    else if tHours < ts.getD k 0 then (k - 1, k)
    else findTimeAroundAux ts n tHours (k + 1)
  else (n - 1, n - 1)
termination_by n - k
decreasing_by omega

/-- Embedding of `findTimeAround` (part_001 lines 977-988): bounding indices around a time
in hours.  A target below the first step yields `(0, 0)` (the JS
`Number.isFinite` guard has no counterpart on `ℚ`). -/
def findTimeAround (ts : List ℚ) (n : Nat) (tHours : ℚ) : Nat × Nat :=
  if tHours < ts.getD 0 0 then (0, 0) else findTimeAroundAux ts n tHours 0

/-- Embedding of `getGribTimeIndexFromEpoch` (part_001 lines 995-1002): nearest grib time
index for an epoch; the strict `<` sends exact midpoints to `iTInf`. -/
def getGribTimeIndexFromEpoch (meta : GribMeta) (currentEpoch : ℚ) : Nat :=
  let diffHours := (currentEpoch - meta.epochStart) / 3600
  let p := findTimeAround meta.timeStamps meta.nTimeStamp diffHours
  if meta.timeStamps.getD p.2 0 - diffHours < diffHours - meta.timeStamps.getD p.1 0 then
    p.2
  else
    p.1

/-- Meta with steps `[0, 2]` hours: a query 1 hour after the run start is an
exact midpoint between the two steps. -/
def metaTie : GribMeta :=
  { epochStart := 0, nTimeStamp := 2, timeStamps := [0, 2],
    nLat := 1, nLon := 1, nShortName := 2, name := "tie.grb" }

/-- Meta with steps `[0, 3, 6, 9]` hours (the spec's scenario). -/
def meta0369 : GribMeta :=
  { epochStart := 0, nTimeStamp := 4, timeStamps := [0, 3, 6, 9],
    nLat := 1, nLon := 1, nShortName := 2, name := "s.grb" }

/- =====================  Wind barb glyph  ===================== -/

/-- Modelled from the spec: the m/s → knots conversion factor `MS_TO_KN`
referenced by `drawWindBarb` is defined in a repository file that is not part
of the provided sources; per the spec the speed is "converted to knots", and
one m/s is 3600/1852 knots. -/
def MS_TO_KN : ℚ := 3600 / 1852

/-- What `drawWindBarb` draws: a small calm circle, nothing at all, or a
shaft with `n50` pennants, `n10` full barbs and an optional half barb. -/
inductive BarbGlyph where
  | calmCircle : BarbGlyph
  | noDraw : BarbGlyph
  | barbs (n50 n10 : Nat) (half : Bool) : BarbGlyph
deriving DecidableEq

/-- Embedding of `drawWindBarb` (part_001 lines 1131-1232) from the point where the wind
speed in knots has been computed (`speedKts0 = sqrt(u²+v²) * MS_TO_KN`, the
value of the JS variable `speedKts` before the bias is added; the square root
itself is irrational in general and is taken as the input here).  Below 2
knots a small circle is drawn and nothing else; otherwise the calibration
bias 2.5 is added, the vector magnitude (`speedKts0 / MS_TO_KN`) is checked
against 0.5, and the biased speed is decomposed into 50-, 10- and 5-knot
units.  The `isFinite` guards have no counterpart on `ℚ`. -/
def drawWindBarb (speedKts0 : ℚ) : BarbGlyph :=
  if speedKts0 < 2 then .calmCircle
  else
    let speedKts := speedKts0 + 5 / 2
    let mag := speedKts0 / MS_TO_KN
    if mag < 1 / 2 then .noDraw
    else
      let n50 := (⌊speedKts / 50⌋).toNat
      let rem1 := speedKts - n50 * 50
      let n10 := (⌊rem1 / 10⌋).toNat
      let rem2 := rem1 - n10 * 10
      .barbs n50 n10 (if 5 ≤ rem2 then true else false)

/- =====================  ForecastCache (grib.js)  ===================== -/

/-- The `window.gribCache` record (`grib.js` lines 207-212). -/
structure GribCache where
  key : Option String
  meta : Option GribMeta
  field : Option GribField
  loading : Bool
deriving DecidableEq

/-- The wanted cache key (`grib.js` line 225):
`` `${model}/${gribNameOptional || ""}?onlyUV=${onlyUV ? 1 : 0}` ``. -/
def wantedKey (model gribName : String) (onlyUV : Bool) : String :=
  model ++ "/" ++ gribName ++ "?onlyUV=" ++ (if onlyUV then "1" else "0")

/-- The realized name used for the committed key (`grib.js` line 237):
`meta.name` when present and non-empty, else the requested name. -/
def realKeyName (metaOpt : Option GribMeta) (gribName : String) : String :=
  match metaOpt with
  | some m => if m.name = "" then gribName else m.name
  | none => gribName

/-- Outcome of one `ensureGribLoaded` call: the cache afterwards, the returned
(or thrown) value, and whether a network load was performed. -/
structure EnsureResult where
  cache : GribCache
  result : Except String (Option GribMeta × Option GribField)
  fetched : Bool

/-- Embedding of `gribMetaAndLoad` (`grib.js` lines 378-410) on the `load = true` path,
with the network responses passed in: `metaResp` is the outcome of the
`REQ.GRIB` fetch (HTTP errors, a server `_Error` field and an empty payload
are its `error` cases), `shortnames` and `buf` the header and body of the
`REQ.GRIB_DUMP` fetch.  With neither a model nor a grib name the JS returns
`false`, which the caller destructures into `undefined` meta and field. -/
def gribMetaAndLoad (model gribName : String) (metaResp : Except String GribMeta)
    (shortnames : Option String) (buf : List ℚ) :
    Except String (Option GribMeta × Option GribField) :=
  if model = "" ∧ gribName = "" then .ok (none, none)
  else
    match metaResp with
    | .error e => .error e
    | .ok meta =>
        match gribLoad shortnames meta.nTimeStamp meta.nLat meta.nLon meta.nShortName buf with
        | .error e => .error e
        | .ok field => .ok (some meta, some field)

/-- Embedding of `ensureGribLoaded` (`grib.js` lines 223-246).  `fetch` is the outcome the
inner `gribMetaAndLoad` call would produce.  If a load is in progress the
current cache content is returned as is; on a key hit with populated meta and
field (the decoded field always carries `getUVGW`) the cached pair is
returned; otherwise the load runs under the `loading` flag, commits
key/meta/field, and the flag is cleared by `finally` even when the load
throws (in which case key/meta/field keep their previous values). -/
def ensureGribLoaded (fetch : Except String (Option GribMeta × Option GribField))
    (cache : GribCache) (model gribName : String) (onlyUV : Bool) : EnsureResult :=
  let wanted := wantedKey model gribName onlyUV
  if cache.loading then
    { cache := cache, result := .ok (cache.meta, cache.field), fetched := false }
  else if cache.key = some wanted ∧ cache.meta.isSome = true ∧ cache.field.isSome = true then
    { cache := cache, result := .ok (cache.meta, cache.field), fetched := false }
  else
    match fetch with
    | .ok (metaOpt, fieldOpt) =>
        { cache := { key := some (wantedKey model (realKeyName metaOpt gribName) onlyUV),
                     meta := metaOpt, field := fieldOpt, loading := false },
          result := .ok (metaOpt, fieldOpt), fetched := true }
    | .error e =>
        { cache := { cache with loading := false }, result := .error e, fetched := true }

/-- Embedding of `forceReloadGrib` (`grib.js` lines 257-265): clear the cache entry, then
run `ensureGribLoaded` with the same parameters. -/
def forceReloadGrib (fetch : Except String (Option GribMeta × Option GribField))
    (model gribName : String) (onlyUV : Bool) : EnsureResult :=
  ensureGribLoaded fetch { key := none, meta := none, field := none, loading := false }
    model gribName onlyUV

/- ============  Cache with the module-level gribLimits object  ============ -/

/-- Refinement of the cache state that models the aliasing in `grib.js`:
`gribLimits` is the one module-level metadata object, mutated in place by
`Object.assign` (line 400); `cacheMetaRef` records whether `cache.meta`
currently points at that object (it is only ever `null`/`undefined` or a
reference to `gribLimits`).  `dataGrib` is rebound to a fresh object on every
load, so the cached field is modelled by value. -/
structure GlobalsState where
  gribLimits : Option GribMeta
  cacheKey : Option String
  cacheMetaRef : Bool
  cacheField : Option GribField
  loading : Bool
deriving DecidableEq

/-- The metadata contents an observer reads through `cache.meta`. -/
def observedCacheMeta (s : GlobalsState) : Option GribMeta :=
  if s.cacheMetaRef then s.gribLimits else none

/-- Composition of `ensureGribLoaded` with `gribMetaAndLoad` on the refined state:
the same control flow as `ensureGribLoaded`, but with the
`Object.assign(gribLimits, data)` mutation performed before `gribLoad`
validates the buffer (the modelled meta fields are all overwritten by the
response).  Result value is reduced to ok/error. -/
def ensureGribLoadedRef (metaResp : Except String GribMeta) (shortnames : Option String)
    (buf : List ℚ) (st : GlobalsState) (model gribName : String) (onlyUV : Bool) :
    GlobalsState × Except String Unit × Bool :=
  let wanted := wantedKey model gribName onlyUV
  if st.loading then (st, .ok (), false)
  else if st.cacheKey = some wanted ∧ st.cacheMetaRef = true ∧ st.cacheField.isSome = true then
    (st, .ok (), false)
  else if model = "" ∧ gribName = "" then
    ({ st with cacheKey := some wanted, cacheMetaRef := false, cacheField := none,
               loading := false },
     .ok (), true)
  else
    match metaResp with
    | .error e => ({ st with loading := false }, .error e, true)
    | .ok m =>
        match gribLoad shortnames m.nTimeStamp m.nLat m.nLon m.nShortName buf with
        | .error e =>
            ({ st with gribLimits := some m, loading := false }, .error e, true)
        | .ok f =>
            ({ st with gribLimits := some m,
                       cacheKey := some (wantedKey model (if m.name = "" then gribName else m.name) onlyUV),
                       cacheMetaRef := true, cacheField := some f, loading := false },
             .ok (), true)

/-- Cached metadata for grib file `a.grb` (1×1 grid, one time step). -/
def metaA : GribMeta :=
  { epochStart := 0, nTimeStamp := 1, timeStamps := [0],
    nLat := 1, nLon := 1, nShortName := 2, name := "a.grb" }

/-- Metadata for grib file `b.grb` (2×2 grid, one time step). -/
def metaB : GribMeta :=
  { epochStart := 0, nTimeStamp := 1, timeStamps := [0],
    nLat := 2, nLon := 2, nShortName := 2, name := "b.grb" }

/-- Refined cache state after a completed load of `a.grb`: the cache's meta
aliases the global `gribLimits` object holding `metaA`. -/
def stateA : GlobalsState :=
  { gribLimits := some metaA, cacheKey := some (wantedKey "GFS" "a.grb" false),
    cacheMetaRef := true, cacheField := some fieldUV, loading := false }

/-- A value-model cache in the middle of a load. -/
def cacheLoading : GribCache :=
  { key := none, meta := some metaA, field := some fieldUV, loading := true }

/-- The empty value-model cache (initial `window.gribCache`). -/
def cacheEmpty : GribCache :=
  { key := none, meta := none, field := none, loading := false }

/-- Value-model cache populated with `a.grb`. -/
def cacheA : GribCache :=
  { key := some (wantedKey "GFS" "a.grb" false), meta := some metaA,
    field := some fieldUV, loading := false }

/- =====================  Playback controller (route.js)  ===================== -/

/-- One point of a computed route (`route.js`): latitude, longitude, epoch. -/
structure RoutePoint where
  lat : ℚ
  lon : ℚ
  t : ℚ
deriving DecidableEq

/-- Embedding of `RouteData` (`route.js` lines 8-11). -/
structure RouteData where
  t0Epoch : ℚ
  dtRoute : ℚ
  pts : List RoutePoint
  gribName : String
  currentGrib : String
deriving DecidableEq

/-- The `{t0Epoch, dtRoute, k}` snapshot published to the wind layer by
`update()` (`route.js` line 283). -/
structure RouteStatePub where
  t0Epoch : ℚ
  dtRoute : ℚ
  k : ℚ
deriving DecidableEq

/-- State of `window.player` (`route.js` lines 193-390): the `playing` flag
(mirroring whether the interval timer is armed), the attached route, and the
current index `k`.  `k` is a JS number: `setIndex` clamps it without
rounding, so it is modelled as a rational. -/
structure Player where
  playing : Bool
  route : Option RouteData
  k : ℚ
deriving DecidableEq

/-- The route-state snapshot `update()` publishes (nothing when no route is
attached, since `update` returns early). -/
def publishOf (p : Player) : Option RouteStatePub :=
  match p.route with
  | none => none
  | some r => some { t0Epoch := r.t0Epoch, dtRoute := r.dtRoute, k := p.k }

/-- Embedding of `setIndex` (`route.js` lines 203-208): clamp the given number into
`[0, length-1]` and update.  Returns the new player and the published
snapshot. -/
def setIndex (p : Player) (newK : ℚ) : Player × Option RouteStatePub :=
  match p.route with
  | none => (p, none)
  | some r =>
      let kk := max 0 (min ((r.pts.length : ℚ) - 1) newK)
      let p' := { p with k := kk }
      (p', publishOf p')

/-- Embedding of `setRoute` (`route.js` lines 215-220): attach a route, reset `k` to 0 and
update.  The `playing` flag and the interval timer are not touched. -/
def setRoute (p : Player) (r : RouteData) : Player × Option RouteStatePub :=
  let p' := { p with route := some r, k := 0 }
  (p', publishOf p')

/-- Embedding of `stop` (`route.js` lines 369-374): clear the playing flag and cancel the
timer. -/
def stopP (p : Player) : Player :=
  { p with playing := false }

/-- Embedding of `gotoBeg` (`route.js` lines 326-331). -/
def gotoBeg (p : Player) : Player × Option RouteStatePub :=
  match p.route with
  | none => (p, none)
  | some _ =>
      let p' := stopP { p with k := 0 }
      (p', publishOf p')

/-- Embedding of `gotoEnd` (`route.js` lines 334-339). -/
def gotoEnd (p : Player) : Player × Option RouteStatePub :=
  match p.route with
  | none => (p, none)
  | some r =>
      let p' := stopP { p with k := (r.pts.length : ℚ) - 1 }
      (p', publishOf p')

/-- Embedding of `step` (`route.js` lines 346-350): move by `dir`, clamped. -/
def step (p : Player) (dir : ℚ) : Player × Option RouteStatePub :=
  match p.route with
  | none => (p, none)
  | some r =>
      let p' := { p with k := max 0 (min ((r.pts.length : ℚ) - 1) (p.k + dir)) }
      (p', publishOf p')

/-- Embedding of `tick` (`route.js` lines 353-358): while playing, advance by one; at the
last index (or with no route) stop instead. -/
def tick (p : Player) : Player × Option RouteStatePub :=
  match p.route with
  | none => (stopP p, none)
  | some r =>
      if (r.pts.length : ℚ) - 1 ≤ p.k then (stopP p, none)
      else
        let p' := { p with k := p.k + 1 }
        (p', publishOf p')

/-- Embedding of `play` (`route.js` lines 361-366): no-op without a route or when already
playing; otherwise arm the timer. -/
def play (p : Player) : Player :=
  match p.route with
  | none => p
  | some _ => if p.playing then p else { p with playing := true }

/-- The playback operations quantified over by the index invariant. -/
inductive PlayerOp where
  | opSetIndex (q : ℚ) : PlayerOp
  | opStep (dir : ℚ) : PlayerOp
  | opTick : PlayerOp
  | opGotoBeg : PlayerOp
  | opGotoEnd : PlayerOp

/-- Apply one operation to the player state. -/
def applyOp (p : Player) (op : PlayerOp) : Player :=
  match op with
  | .opSetIndex q => (setIndex p q).1
  | .opStep d => (step p d).1
  | .opTick => (tick p).1
  | .opGotoBeg => (gotoBeg p).1
  | .opGotoEnd => (gotoEnd p).1

/-- Apply a sequence of operations. -/
def applyOps (p : Player) (ops : List PlayerOp) : Player :=
  ops.foldl applyOp p

/-- Integrality side conditions on operations: `setIndex` receives an integral
number and `step` receives ±1. -/
def goodOp : PlayerOp → Prop
  | .opSetIndex q => ∃ z : ℤ, q = (z : ℚ)
  | .opStep d => d = 1 ∨ d = -1
  | .opTick => True
  | .opGotoBeg => True
  | .opGotoEnd => True

/-- A three-point route. -/
def route3 : RouteData :=
  { t0Epoch := 0, dtRoute := 7200,
    pts := [{ lat := 0, lon := 0, t := 0 }, { lat := 1, lon := 1, t := 7200 },
            { lat := 2, lon := 2, t := 14400 }],
    gribName := "g.grb", currentGrib := "" }

/-- A two-point route. -/
def route2 : RouteData :=
  { t0Epoch := 100, dtRoute := 3600,
    pts := [{ lat := 5, lon := 5, t := 100 }, { lat := 6, lon := 6, t := 3700 }],
    gribName := "h.grb", currentGrib := "" }

/-- An operation sequence: scrub to 5 (clamped), step forward, tick. -/
def opsW : List PlayerOp := [.opSetIndex 5, .opStep 1, .opTick]

/-- A player currently playing `route3` at index 0. -/
def playerPlaying3 : Player :=
  { playing := true, route := some route3, k := 0 }

/-- A stopped player on `route3` at index 0. -/
def playerStopped3 : Player :=
  { playing := false, route := some route3, k := 0 }

/-- The `nName` argument is ignored by `gribLoad` apart from a console warning. -/
theorem gribLoad_nName_irrelevant (s : Option String) (nTime nLat nLon n₁ n₂ : Nat)
    (buf : List ℚ) :
    gribLoad s nTime nLat nLon n₁ buf = gribLoad s nTime nLat nLon n₂ buf := rfl

/-- Helper: an index strictly below the length reads back `some` of the
stored value. -/
theorem get?_eq_some_getD (l : List ℚ) (k : Nat) (hk : k < l.length) :
    l.get? k = some (l.getD k 0) := by
  rw [List.getD_eq_getElem?_getD, List.get?_eq_getElem?, List.getElem?_eq_getElem hk]
  rfl

/-- Helper: the flat offset of an in-range index triple leaves room for a full
component group before the end of the buffer. -/
theorem indexOf_add_le (f : GribField) (t iLat iLon : Nat)
    (ht : t < f.nTime) (hla : iLat < f.nLat) (hlo : iLon < f.nLon) :
    indexOf f t iLat iLon + f.nShortName ≤ f.nTime * f.nLat * f.nLon * f.nShortName := by
  unfold indexOf
  have h1 : t * f.nLat + iLat + 1 ≤ f.nTime * f.nLat := by
    calc t * f.nLat + iLat + 1 ≤ t * f.nLat + f.nLat := by omega
    _ = (t + 1) * f.nLat := by ring
    _ ≤ f.nTime * f.nLat := Nat.mul_le_mul_right _ (by omega)
  have h2 : (t * f.nLat + iLat) * f.nLon + iLon + 1 ≤ f.nTime * f.nLat * f.nLon := by
    calc (t * f.nLat + iLat) * f.nLon + iLon + 1
        ≤ (t * f.nLat + iLat) * f.nLon + f.nLon := by omega
    _ = (t * f.nLat + iLat + 1) * f.nLon := by ring
    _ ≤ f.nTime * f.nLat * f.nLon := Nat.mul_le_mul_right _ h1
  calc ((t * f.nLat + iLat) * f.nLon + iLon) * f.nShortName + f.nShortName
      = ((t * f.nLat + iLat) * f.nLon + iLon + 1) * f.nShortName := by ring
  _ ≤ f.nTime * f.nLat * f.nLon * f.nShortName := Nat.mul_le_mul_right _ h2

/-- In-range sampling reads back the stored buffer slots (core lemma, stated
directly on a field whose invariants hold). -/
theorem getUVGW_in_range (f : GribField) (t iLat iLon : Nat)
    (hlen : f.values.length = f.nTime * f.nLat * f.nLon * f.nShortName)
    (hns : f.nShortName =
      2 + (if f.hasG then 1 else 0) + (if f.hasW then 1 else 0))
    (ht : t < f.nTime) (hla : iLat < f.nLat) (hlo : iLon < f.nLon) :
    getUVGW f t iLat iLon =
      { u := some (f.values.getD (indexOf f t iLat iLon) 0)
        v := some (f.values.getD (indexOf f t iLat iLon + 1) 0)
        g := if f.hasG then
               some (f.values.getD (indexOf f t iLat iLon + 2) 0)
             else some 0
        w := if f.hasW then
               some (f.values.getD
                 (indexOf f t iLat iLon + (if f.hasG then 3 else 2)) 0)
             else some 0 } := by
  have hbound : indexOf f t iLat iLon + f.nShortName ≤ f.values.length := by
    rw [hlen]; exact indexOf_add_le f t iLat iLon ht hla hlo
  simp only [getUVGW, UVGW.mk.injEq]
  cases hG : f.hasG <;> cases hW : f.hasW
  · have hns2 : f.nShortName = 2 := by rw [hns, hG, hW]; rfl
    simp only [hG, hW, Bool.false_eq_true, if_false]
    exact ⟨get?_eq_some_getD _ _ (by omega), get?_eq_some_getD _ _ (by omega),
      trivial, trivial⟩
  · have hns2 : f.nShortName = 3 := by rw [hns, hG, hW]; rfl
    simp only [hG, hW, Bool.false_eq_true, if_false, if_true]
    exact ⟨get?_eq_some_getD _ _ (by omega), get?_eq_some_getD _ _ (by omega),
      trivial, get?_eq_some_getD _ _ (by omega)⟩
  · have hns2 : f.nShortName = 3 := by rw [hns, hG, hW]; rfl
    simp only [hG, hW, Bool.false_eq_true, if_false, if_true]
    exact ⟨get?_eq_some_getD _ _ (by omega), get?_eq_some_getD _ _ (by omega),
      get?_eq_some_getD _ _ (by omega), trivial⟩
  · have hns2 : f.nShortName = 4 := by rw [hns, hG, hW]; rfl
    simp only [hG, hW, if_true]
    exact ⟨get?_eq_some_getD _ _ (by omega), get?_eq_some_getD _ _ (by omega),
      get?_eq_some_getD _ _ (by omega), get?_eq_some_getD _ _ (by omega)⟩

/-- C2: for every buffer whose float count differs from
`timeSteps * latCount * lonCount * componentCount` (component count derived
from the `X-Shortnames` response header), the decoder raises a fatal error
and returns no field object. -/
theorem gribLoad_size_mismatch_fatal (s : String) (nTime nLat nLon nName : Nat)
    (buf : List ℚ)
    (hmis : buf.length ≠ nTime * nLat * nLon *
      (2 + (if s.data.contains 'g' then 1 else 0) + (if s.data.contains 'w' then 1 else 0))) :
    gribLoad (some s) nTime nLat nLon nName buf = .error "gribLoad: unexpected size" := by
  simp only [gribLoad, if_neg hmis]

/-- C2 witness: a 1-float buffer against dimensions 1×1×1 with components
`uv` (expected length 2) is rejected. -/
theorem gribLoad_size_mismatch_fatal_witness :
    [(0 : ℚ)].length ≠ 1 * 1 * 1 *
      (2 + (if "uv".data.contains 'g' then 1 else 0) +
        (if "uv".data.contains 'w' then 1 else 0)) ∧
    gribLoad (some "uv") 1 1 1 2 [(0 : ℚ)] = .error "gribLoad: unexpected size" :=
  ⟨by decide, gribLoad_size_mismatch_fatal "uv" 1 1 1 2 [0] (by decide)⟩

/-- C3: for a buffer of exactly the matching length and in-range indices,
sampling returns exactly the floats stored at flat offset
`((tIndex * latCount + iLat) * lonCount + iLon) * componentCount`, with
components absent from the header defaulting to 0. -/
theorem gribLoad_sample_exact (s : String) (nTime nLat nLon nName : Nat)
    (buf : List ℚ) (f : GribField) (t iLat iLon : Nat)
    (hload : gribLoad (some s) nTime nLat nLon nName buf = .ok f)
    (ht : t < nTime) (hla : iLat < nLat) (hlo : iLon < nLon) :
    getUVGW f t iLat iLon =
      { u := some (buf.getD (indexOf f t iLat iLon) 0)
        v := some (buf.getD (indexOf f t iLat iLon + 1) 0)
        g := if f.hasG then
               some (buf.getD (indexOf f t iLat iLon + 2) 0)
             else some 0
        w := if f.hasW then
               some (buf.getD
                 (indexOf f t iLat iLon + (if f.hasG then 3 else 2)) 0)
             else some 0 } := by
  simp only [gribLoad] at hload
  by_cases hc : buf.length = nTime * nLat * nLon *
      (2 + (if s.data.contains 'g' then 1 else 0) + (if s.data.contains 'w' then 1 else 0))
  · rw [if_pos hc] at hload
    injection hload with hf
    subst hf
    exact getUVGW_in_range _ t iLat iLon hc rfl ht hla hlo
  · rw [if_neg hc] at hload
    exact absurd hload (by simp)

/-- C3 witness: decoding a 2-float buffer `[3, 7]` for a 1×1×1 `uv` grid and
sampling index (0,0,0) returns u = 3, v = 7, g = w = 0. -/
theorem gribLoad_sample_exact_witness :
    gribLoad (some "uv") 1 1 1 2 [(3 : ℚ), 7] = .ok fieldUV ∧
    getUVGW fieldUV 0 0 0 =
      { u := some (([(3 : ℚ), 7]).getD (indexOf fieldUV 0 0 0) 0)
        v := some (([(3 : ℚ), 7]).getD (indexOf fieldUV 0 0 0 + 1) 0)
        g := if fieldUV.hasG then
               some (([(3 : ℚ), 7]).getD (indexOf fieldUV 0 0 0 + 2) 0)
             else some 0
        w := if fieldUV.hasW then
               some (([(3 : ℚ), 7]).getD
                 (indexOf fieldUV 0 0 0 + (if fieldUV.hasG then 3 else 2)) 0)
             else some 0 } :=
  ⟨rfl,
   gribLoad_sample_exact "uv" 1 1 1 2 [3, 7] fieldUV 0 0 0 rfl
     (by decide) (by decide) (by decide)⟩

/-- C10: `getUVGW` performs no bounds checking: when the flat offset falls
outside the buffer it silently returns JS `undefined` (modelled `none`) for
the components read from the buffer, and the 0-default for components absent
from the header; no error is raised. -/
theorem getUVGW_out_of_range (f : GribField) (t iLat iLon : Nat)
    (hout : f.values.length ≤ indexOf f t iLat iLon) :
    (getUVGW f t iLat iLon).u = none ∧
    (getUVGW f t iLat iLon).v = none ∧
    (f.hasG = true → (getUVGW f t iLat iLon).g = none) ∧
    (f.hasG = false → (getUVGW f t iLat iLon).g = some 0) ∧
    (f.hasW = true → (getUVGW f t iLat iLon).w = none) ∧
    (f.hasW = false → (getUVGW f t iLat iLon).w = some 0) := by
  have hnone : ∀ k, f.values.length ≤ k → f.values.get? k = none := fun k hk =>
    List.get?_eq_none.mpr hk
  simp only [getUVGW]
  refine ⟨hnone _ hout, hnone _ (by omega), ?_, ?_, ?_, ?_⟩ <;> intro hx <;>
      simp only [hx, if_true, if_false, Bool.false_eq_true]
  · exact hnone (indexOf f t iLat iLon + 2) (by omega)
  · have hb : f.values.length ≤ indexOf f t iLat iLon + (if f.hasG then 3 else 2) := by
      split <;> omega
    exact hnone _ hb

/-- C10 witness: sampling the empty-buffer field at (0,0,0) yields
`undefined` u and v with no error. -/
theorem getUVGW_out_of_range_witness :
    fieldEmpty.values.length ≤ indexOf fieldEmpty 0 0 0 ∧
    ((getUVGW fieldEmpty 0 0 0).u = none ∧
     (getUVGW fieldEmpty 0 0 0).v = none ∧
     (fieldEmpty.hasG = true → (getUVGW fieldEmpty 0 0 0).g = none) ∧
     (fieldEmpty.hasG = false → (getUVGW fieldEmpty 0 0 0).g = some 0) ∧
     (fieldEmpty.hasW = true → (getUVGW fieldEmpty 0 0 0).w = none) ∧
     (fieldEmpty.hasW = false → (getUVGW fieldEmpty 0 0 0).w = some 0)) :=
  ⟨by decide, getUVGW_out_of_range fieldEmpty 0 0 0 (by decide)⟩

/-- C5 (amended): attaching a route resets the index to 0 and publishes the
new route state, but leaves the Playing/Stopped state unchanged. -/
theorem setRoute_resets_and_publishes (p : Player) (r : RouteData) :
    setRoute p r =
      ({ playing := p.playing, route := some r, k := 0 },
       some { t0Epoch := r.t0Epoch, dtRoute := r.dtRoute, k := 0 }) := rfl

/-- C5 counterexample: attaching a route to a playing controller does not put
it into the Stopped state — it keeps playing. -/
theorem setRoute_keeps_playing_cex :
    playerPlaying3.playing = true ∧
    ((setRoute playerPlaying3 route2).1).playing = true := by
  exact ⟨rfl, rfl⟩

/-- C7: the `loading` flag allows at most one load at a time: while a load is
in progress any call returns the current cache content with no fetch; a call
that starts with the flag clear always ends with it clear (the `finally`
clears it even on failure); and `forceReloadGrib` also ends with the flag
clear and always performs a fetch. -/
theorem loading_flag_guards_cache
    (fetch : Except String (Option GribMeta × Option GribField))
    (c : GribCache) (model gribName : String) (onlyUV : Bool) :
    (c.loading = true →
      ensureGribLoaded fetch c model gribName onlyUV =
        { cache := c, result := .ok (c.meta, c.field), fetched := false }) ∧
    (c.loading = false →
      (ensureGribLoaded fetch c model gribName onlyUV).cache.loading = false) ∧
    (forceReloadGrib fetch model gribName onlyUV).cache.loading = false ∧
    (forceReloadGrib fetch model gribName onlyUV).fetched = true := by
  refine ⟨fun hl => ?_, fun hl => ?_, ?_, ?_⟩
  · unfold ensureGribLoaded
    rw [if_pos hl]
  · unfold ensureGribLoaded
    rw [if_neg (by simp [hl])]
    split
    · exact hl
    · rcases fetch with e | ⟨mo, fo⟩ <;> rfl
  · unfold forceReloadGrib ensureGribLoaded
    rcases fetch with e | ⟨mo, fo⟩ <;> rfl
  · unfold forceReloadGrib ensureGribLoaded
    rcases fetch with e | ⟨mo, fo⟩ <;> rfl

/-- C7 witness: with a load in progress, a concurrent call performs no fetch
and returns the (possibly stale) cached content. -/
theorem loading_flag_guards_cache_witness :
    ensureGribLoaded (.error "net down") cacheLoading "GFS" "" false =
      { cache := cacheLoading, result := .ok (cacheLoading.meta, cacheLoading.field),
        fetched := false } :=
  (loading_flag_guards_cache (.error "net down") cacheLoading "GFS" "" false).1 rfl

/-- C4: if a call has completed successfully, populating the cache with meta
and field under a key that a second call computes again, the second call
performs no fetch, leaves the cache untouched and returns the identical
meta/field pair. -/
theorem cached_pair_returned_without_fetch
    (fetch1 fetch2 : Except String (Option GribMeta × Option GribField))
    (c c1 : GribCache) (model1 name1 : String) (uv1 : Bool)
    (model2 name2 : String) (uv2 : Bool) (m : GribMeta) (fld : GribField) (d : Bool)
    (h1 : ensureGribLoaded fetch1 c model1 name1 uv1 =
      { cache := c1, result := .ok (some m, some fld), fetched := d })
    (hkey : c1.key = some (wantedKey model2 name2 uv2)) :
    ensureGribLoaded fetch2 c1 model2 name2 uv2 =
      { cache := c1, result := .ok (some m, some fld), fetched := false } := by
  have hmf : c1.meta = some m ∧ c1.field = some fld := by
    unfold ensureGribLoaded at h1
    by_cases hl : c.loading = true
    · rw [if_pos hl] at h1
      obtain ⟨hc, hr, -⟩ := EnsureResult.mk.injEq .. ▸ h1
      injection hr with hr
      obtain ⟨hm, hf⟩ := Prod.mk.injEq .. ▸ hr
      exact ⟨hc ▸ hm, hc ▸ hf⟩
    · rw [if_neg hl] at h1
      by_cases hhit : c.key = some (wantedKey model1 name1 uv1) ∧
          c.meta.isSome = true ∧ c.field.isSome = true
      · rw [if_pos hhit] at h1
        obtain ⟨hc, hr, -⟩ := EnsureResult.mk.injEq .. ▸ h1
        injection hr with hr
        obtain ⟨hm, hf⟩ := Prod.mk.injEq .. ▸ hr
        exact ⟨hc ▸ hm, hc ▸ hf⟩
      · rw [if_neg hhit] at h1
        rcases fetch1 with e | ⟨mo, fo⟩
        · obtain ⟨-, hr, -⟩ := EnsureResult.mk.injEq .. ▸ h1
          exact absurd hr (by simp)
        · obtain ⟨hc, hr, -⟩ := EnsureResult.mk.injEq .. ▸ h1
          injection hr with hr
          obtain ⟨hm, hf⟩ := Prod.mk.injEq .. ▸ hr
          subst hm hf
          exact ⟨congrArg GribCache.meta hc.symm ▸ rfl, congrArg GribCache.field hc.symm ▸ rfl⟩
  unfold ensureGribLoaded
  by_cases hl : c1.loading = true
  · rw [if_pos hl, hmf.1, hmf.2]
  · rw [if_neg hl, if_pos ⟨hkey, by rw [hmf.1]; rfl, by rw [hmf.2]; rfl⟩, hmf.1, hmf.2]

/-- C4 witness: after loading `a.grb` into an empty cache, an identical call
performs no fetch (even with the network now failing) and returns the same
meta and field. -/
theorem cached_pair_returned_without_fetch_witness :
    ensureGribLoaded (.error "net down") cacheA "GFS" "a.grb" false =
      { cache := cacheA, result := .ok (some metaA, some fieldUV), fetched := false } :=
  cached_pair_returned_without_fetch (.ok (some metaA, some fieldUV)) (.error "net down")
    cacheEmpty cacheA "GFS" "a.grb" false "GFS" "a.grb" false metaA fieldUV true
    rfl rfl

/-- C6 (amended): when a load fails with the buffer-length consistency error,
the error is raised before any field object is returned, the cache entry's
key and field and the loading flag are restored/untouched — but the cached
meta's contents are not preserved: the module-level `gribLimits` object,
which the cache's meta aliases, has already been overwritten with the newly
fetched metadata. -/
theorem consistency_error_leaves_key_field (m : GribMeta) (str : String) (buf : List ℚ)
    (st : GlobalsState) (model gribName : String) (onlyUV : Bool)
    (hl : st.loading = false)
    (hmiss : ¬(st.cacheKey = some (wantedKey model gribName onlyUV) ∧
      st.cacheMetaRef = true ∧ st.cacheField.isSome = true))
    (hparam : ¬(model = "" ∧ gribName = ""))
    (hmis : buf.length ≠ m.nTimeStamp * m.nLat * m.nLon *
      (2 + (if str.data.contains 'g' then 1 else 0) +
        (if str.data.contains 'w' then 1 else 0))) :
    ensureGribLoadedRef (.ok m) (some str) buf st model gribName onlyUV =
      ({ st with gribLimits := some m, loading := false },
       .error "gribLoad: unexpected size", true) := by
  unfold ensureGribLoadedRef
  rw [if_neg (by simp [hl]), if_neg hmiss, if_neg hparam]
  simp only [gribLoad, if_neg hmis]

/-- C6 counterexample: with `a.grb` cached, a failing load of `b.grb`
(metadata fetched, buffer of the wrong size) raises the consistency error but
overwrites the cached meta contents (now `metaB`), leaving the old key and
field in place — the previous cache entry is not left untouched. -/
theorem consistency_error_mutates_meta_cex :
    (ensureGribLoadedRef (.ok metaB) (some "uv") [0] stateA "GFS" "b.grb" false).2.1 =
        .error "gribLoad: unexpected size" ∧
    observedCacheMeta
        (ensureGribLoadedRef (.ok metaB) (some "uv") [0] stateA "GFS" "b.grb" false).1 =
      some metaB ∧
    (ensureGribLoadedRef (.ok metaB) (some "uv") [0] stateA "GFS" "b.grb" false).1.cacheKey =
      stateA.cacheKey ∧
    (ensureGribLoadedRef (.ok metaB) (some "uv") [0] stateA "GFS" "b.grb" false).1.cacheField =
      stateA.cacheField ∧
    observedCacheMeta stateA = some metaA ∧
    metaB ≠ metaA :=
  ⟨rfl, rfl, rfl, rfl, rfl, by decide⟩

/-- C6 witness for the amended statement, at the same concrete inputs. -/
theorem consistency_error_leaves_key_field_witness :
    ensureGribLoadedRef (.ok metaB) (some "uv") [(0 : ℚ)] stateA "GFS" "b.grb" false =
      ({ stateA with gribLimits := some metaB, loading := false },
       .error "gribLoad: unexpected size", true) :=
  consistency_error_leaves_key_field metaB "uv" [0] stateA "GFS" "b.grb" false rfl
    (by decide) (by decide) (by decide)

/-- C8: a resolved speed of 63 knots decomposes — once the 2.5-knot
calibration bias is applied by the algorithm — into exactly one 50-knot
pennant, one 10-knot barb and one 5-knot half-barb; and every speed below the
2-knot calm threshold draws only the small circle (no shaft, no flags). -/
theorem windBarb_63_and_calm :
    drawWindBarb 63 = .barbs 1 1 true ∧
    (∀ s : ℚ, s < 2 → drawWindBarb s = .calmCircle) := by
  constructor
  · unfold drawWindBarb
    norm_num [MS_TO_KN]
  · intro s hs
    unfold drawWindBarb
    rw [if_pos hs]

/-- C8 witness: a 1-knot wind draws the calm circle. -/
theorem windBarb_63_and_calm_witness :
    (1 : ℚ) < 2 ∧ drawWindBarb 1 = .calmCircle :=
  ⟨by norm_num, windBarb_63_and_calm.2 1 (by norm_num)⟩

/-- C9 counterexample: `setIndex` with the number ½ (in range, not an
integer) stores ½ as the playback index — the index does not remain an
integer, because `setIndex` clamps without rounding. -/
theorem setIndex_nonintegral_cex :
    ((setIndex playerStopped3 (1 / 2)).1).k = 1 / 2 ∧ ((1 : ℚ) / 2).den = 2 := by
  constructor
  · simp only [setIndex, playerStopped3, route3]
    norm_num
  · norm_num

/-- Helper: clamping an integer into `[0, n-1]` (computed over ℚ as the
player does) lands on a natural number below `n`. -/
theorem clamp_int_mem (n : Nat) (hn : 0 < n) (z : ℤ) :
    ∃ m : Nat, max 0 (min ((n : ℚ) - 1) (z : ℚ)) = (m : ℚ) ∧ m < n := by
  refine ⟨(max 0 (min ((n : ℤ) - 1) z)).toNat, ?_, by omega⟩
  have h0 : (0 : ℤ) ≤ max 0 (min ((n : ℤ) - 1) z) := le_max_left 0 _
  have hcast : (((max 0 (min ((n : ℤ) - 1) z)).toNat : Nat) : ℚ) =
      ((max 0 (min ((n : ℤ) - 1) z) : ℤ) : ℚ) := by
    exact_mod_cast congrArg (Int.cast : ℤ → ℚ) (Int.toNat_of_nonneg h0)
  rw [hcast]
  push_cast
  rfl

/-- Helper: every playback operation with integral arguments keeps the route
attached and the index a natural number below the route length. -/
theorem applyOp_route_k (p : Player) (r : RouteData) (op : PlayerOp)
    (hroute : p.route = some r)
    (hk : ∃ m : Nat, p.k = (m : ℚ) ∧ m < r.pts.length)
    (hop : goodOp op) :
    (applyOp p op).route = some r ∧
    ∃ m : Nat, (applyOp p op).k = (m : ℚ) ∧ m < r.pts.length := by
  obtain ⟨m, hm, hmn⟩ := hk
  have hn : 0 < r.pts.length := by omega
  obtain ⟨pl, proute, pk⟩ := p
  have hr : proute = some r := hroute
  subst hr
  have hm' : pk = (m : ℚ) := hm
  cases op with
  | opSetIndex q =>
      obtain ⟨z, rfl⟩ := hop
      exact ⟨rfl, clamp_int_mem _ hn z⟩
  | opStep d =>
      refine ⟨rfl, ?_⟩
      rcases hop with rfl | rfl
      · show ∃ mm : Nat,
          max 0 (min ((r.pts.length : ℚ) - 1) (pk + 1)) = (mm : ℚ) ∧ mm < r.pts.length
        have hz : pk + 1 = (((m : ℤ) + 1 : ℤ) : ℚ) := by rw [hm']; push_cast; ring
        rw [hz]
        exact clamp_int_mem _ hn _
      · show ∃ mm : Nat,
          max 0 (min ((r.pts.length : ℚ) - 1) (pk + -1)) = (mm : ℚ) ∧ mm < r.pts.length
        have hz : pk + -1 = (((m : ℤ) - 1 : ℤ) : ℚ) := by rw [hm']; push_cast; ring
        rw [hz]
        exact clamp_int_mem _ hn _
  | opTick =>
      by_cases hlast : (r.pts.length : ℚ) - 1 ≤ pk
      · simp only [applyOp, tick, hlast, if_true]
        exact ⟨by trivial, m, hm', hmn⟩
      · simp only [applyOp, tick, hlast, if_false]
        refine ⟨by trivial, m + 1, by rw [hm']; push_cast; ring, ?_⟩
        rw [hm'] at hlast
        have h1 : (m : ℚ) + 1 < (r.pts.length : ℚ) := by
          have := lt_of_not_le hlast
          linarith
        exact_mod_cast h1
  | opGotoBeg =>
      exact ⟨rfl, 0, by norm_num [applyOp, gotoBeg, stopP], hn⟩
  | opGotoEnd =>
      refine ⟨rfl, r.pts.length - 1, ?_, by omega⟩
      show (r.pts.length : ℚ) - 1 = ((r.pts.length - 1 : ℕ) : ℚ)
      have h1 : (1 : ℕ) ≤ r.pts.length := hn
      push_cast [Nat.cast_sub h1]
      ring

/-- Helper: the invariant is preserved by any sequence of good operations. -/
theorem applyOps_route_k (r : RouteData) (ops : List PlayerOp) :
    ∀ p : Player, p.route = some r →
      (∃ m : Nat, p.k = (m : ℚ) ∧ m < r.pts.length) →
      (∀ op ∈ ops, goodOp op) →
      (applyOps p ops).route = some r ∧
      ∃ m : Nat, (applyOps p ops).k = (m : ℚ) ∧ m < r.pts.length := by
  induction ops with
  | nil => exact fun p h1 h2 _ => ⟨h1, h2⟩
  | cons op rest ih =>
      intro p h1 h2 hops
      have hstep := applyOp_route_k p r op h1 h2 (hops op (by simp))
      exact ih (applyOp p op) hstep.1 hstep.2 fun o ho => hops o (by simp [ho])

/-- C9 (amended): with an attached route and integral operation arguments
(`setIndex` with an integer, `step` with ±1), the playback index remains a
natural number in `[0, length-1]` under any sequence of `setIndex`, `step`,
`tick`, `gotoBeg`, `gotoEnd`; moreover `step 1` at the last index leaves the
index unchanged, and `tick` at the last index stops instead of advancing.
(A non-integral `setIndex` argument is clamped but not rounded, so the index
need not stay an integer in general.) -/
theorem playback_index_invariant (p : Player) (r : RouteData) (ops : List PlayerOp)
    (hroute : p.route = some r)
    (hk : ∃ m : Nat, p.k = (m : ℚ) ∧ m < r.pts.length)
    (hops : ∀ op ∈ ops, goodOp op) :
    ((applyOps p ops).route = some r ∧
     ∃ m : Nat, (applyOps p ops).k = (m : ℚ) ∧ m < r.pts.length) ∧
    (p.k = (r.pts.length : ℚ) - 1 →
      ((step p 1).1.k = p.k ∧ (tick p).1 = stopP p)) := by
  obtain ⟨m, hm, hmn⟩ := hk
  have hn : 0 < r.pts.length := by omega
  constructor
  · exact applyOps_route_k r ops p hroute ⟨m, hm, hmn⟩ hops
  · intro hlast
    have hL : (1 : ℚ) ≤ (r.pts.length : ℚ) := by exact_mod_cast hn
    obtain ⟨pl, proute, pk⟩ := p
    have hr : proute = some r := hroute
    subst hr
    have hlast' : pk = (r.pts.length : ℚ) - 1 := hlast
    constructor
    · show max 0 (min ((r.pts.length : ℚ) - 1) (pk + 1)) = pk
      rw [hlast']
      rw [min_eq_left (by linarith), max_eq_right (by linarith)]
    · show (tick ⟨pl, some r, pk⟩).1 = stopP ⟨pl, some r, pk⟩
      simp only [tick, le_of_eq hlast'.symm, if_true]

/-- C9 witness: from index 0 on a three-point route, scrubbing to 5 (clamped
to 2), stepping forward (stays at 2) and ticking keeps the route attached and
the index a natural number below 3. -/
theorem playback_index_invariant_witness :
    (applyOps playerStopped3 opsW).route = some route3 ∧
    ∃ m : Nat, (applyOps playerStopped3 opsW).k = (m : ℚ) ∧ m < route3.pts.length :=
  (playback_index_invariant playerStopped3 route3 opsW rfl
    ⟨0, by norm_num [playerStopped3], by norm_num [route3]⟩
    (by
      intro op hop
      simp only [opsW, List.mem_cons, List.not_mem_nil, or_false] at hop
      rcases hop with rfl | rfl | rfl
      · exact ⟨5, by norm_num⟩
      · exact Or.inl rfl
      · exact trivial)).1

/-- Helper: strictly increasing step lists are pointwise increasing under
`getD`. -/
theorem pairwise_getD_lt (ts : List ℚ) (hmono : List.Pairwise (· < ·) ts)
    (i j : Nat) (hij : i < j) (hj : j < ts.length) :
    ts.getD i 0 < ts.getD j 0 := by
  have hi : i < ts.length := lt_trans hij hj
  have h2 := List.pairwise_iff_get.mp hmono ⟨i, hi⟩ ⟨j, hj⟩ hij
  rw [List.getD_eq_getElem?_getD, List.getElem?_eq_getElem hi,
      List.getD_eq_getElem?_getD, List.getElem?_eq_getElem hj]
  exact h2

/-- Helper: weak version (indices `i ≤ j`). -/
theorem pairwise_getD_le (ts : List ℚ) (hmono : List.Pairwise (· < ·) ts)
    (i j : Nat) (hij : i ≤ j) (hj : j < ts.length) :
    ts.getD i 0 ≤ ts.getD j 0 := by
  rcases eq_or_lt_of_le hij with rfl | h
  · exact le_rfl
  · exact (pairwise_getD_lt ts hmono i j h hj).le

/-- Helper: if every step from `k` on is below the target, the scan runs off
the end and returns `(n-1, n-1)`. -/
theorem findTimeAroundAux_all_lt (ts : List ℚ) (n : Nat) (d : ℚ) :
    ∀ fuel k, n - k ≤ fuel → (∀ j, k ≤ j → j < n → ts.getD j 0 < d) →
      findTimeAroundAux ts n d k = (n - 1, n - 1) := by
  intro fuel
  induction fuel with
  | zero =>
      intro k hk _
      have hkn : ¬ k < n := by omega
      rw [findTimeAroundAux, dif_neg hkn]
  | succ fuel ih =>
      intro k hk hall
      by_cases hkn : k < n
      · have hlt : ts.getD k 0 < d := hall k le_rfl hkn
        rw [findTimeAroundAux, dif_pos hkn, if_neg (ne_of_gt hlt),
            if_neg (not_lt.mpr hlt.le)]
        exact ih (k + 1) (by omega) fun j hj hjn => hall j (by omega) hjn
      · rw [findTimeAroundAux, dif_neg hkn]

/-- Helper: on an exact match at `i` (everything before `i` strictly below
the target), the scan returns `(i, i)`. -/
theorem findTimeAroundAux_exact (ts : List ℚ) (n : Nat) (d : ℚ) (i : Nat)
    (hi : i < n) (hd : d = ts.getD i 0) :
    ∀ fuel k, i - k ≤ fuel → k ≤ i → (∀ j, k ≤ j → j < i → ts.getD j 0 < d) →
      findTimeAroundAux ts n d k = (i, i) := by
  intro fuel
  induction fuel with
  | zero =>
      intro k hk hki _
      have hke : k = i := by omega
      subst hke
      rw [findTimeAroundAux, dif_pos hi, if_pos hd]
  | succ fuel ih =>
      intro k hk hki hall
      by_cases hke : k = i
      · subst hke
        rw [findTimeAroundAux, dif_pos hi, if_pos hd]
      · have hklt : k < i := by omega
        have hkn : k < n := by omega
        have hlt : ts.getD k 0 < d := hall k le_rfl hklt
        rw [findTimeAroundAux, dif_pos hkn, if_neg (ne_of_gt hlt),
            if_neg (not_lt.mpr hlt.le)]
        exact ih (k + 1) (by omega) (by omega) fun j hj hjn => hall j (by omega) hjn

/-- Helper: when step `i` is the first one strictly above the target (and
everything before is strictly below), the scan returns `(i-1, i)`. -/
theorem findTimeAroundAux_straddle (ts : List ℚ) (n : Nat) (d : ℚ) (i : Nat)
    (hi : i < n) (hup : d < ts.getD i 0) :
    ∀ fuel k, i - k ≤ fuel → k ≤ i → (∀ j, k ≤ j → j < i → ts.getD j 0 < d) →
      findTimeAroundAux ts n d k = (i - 1, i) := by
  intro fuel
  induction fuel with
  | zero =>
      intro k hk hki _
      have hke : k = i := by omega
      subst hke
      rw [findTimeAroundAux, dif_pos hi, if_neg (ne_of_lt hup), if_pos hup]
  | succ fuel ih =>
      intro k hk hki hall
      by_cases hke : k = i
      · subst hke
        rw [findTimeAroundAux, dif_pos hi, if_neg (ne_of_lt hup), if_pos hup]
      · have hklt : k < i := by omega
        have hkn : k < n := by omega
        have hlt : ts.getD k 0 < d := hall k le_rfl hklt
        rw [findTimeAroundAux, dif_pos hkn, if_neg (ne_of_gt hlt),
            if_neg (not_lt.mpr hlt.le)]
        exact ih (k + 1) (by omega) (by omega) fun j hj hjn => hall j (by omega) hjn

/-- Helper: the resolver reduced through a known bounding pair. -/
theorem getGribTimeIndex_of_pair (meta : GribMeta) (epoch : ℚ) (i j : Nat)
    (hp : findTimeAround meta.timeStamps meta.nTimeStamp
      ((epoch - meta.epochStart) / 3600) = (i, j)) :
    getGribTimeIndexFromEpoch meta epoch =
      if meta.timeStamps.getD j 0 - (epoch - meta.epochStart) / 3600 <
          (epoch - meta.epochStart) / 3600 - meta.timeStamps.getD i 0 then j
      else i := by
  simp only [getGribTimeIndexFromEpoch, hp]

/-- C1 (amended): for a meta with a strictly increasing step list, resolving
an epoch returns 0 at or below the first step, the last index at or above the
last step, the matching index on an exact hit, and otherwise the closer of
the two straddling indices — with ties resolved to the EARLIER index (the
strict `<` in the source sends exact midpoints to `iTInf`). -/
theorem grib_time_index_resolution (meta : GribMeta) (epoch : ℚ)
    (hlen : meta.nTimeStamp = meta.timeStamps.length)
    (hpos : 0 < meta.nTimeStamp)
    (hmono : List.Pairwise (· < ·) meta.timeStamps) :
    ((epoch - meta.epochStart) / 3600 ≤ meta.timeStamps.getD 0 0 →
      getGribTimeIndexFromEpoch meta epoch = 0) ∧
    (meta.timeStamps.getD (meta.nTimeStamp - 1) 0 ≤ (epoch - meta.epochStart) / 3600 →
      getGribTimeIndexFromEpoch meta epoch = meta.nTimeStamp - 1) ∧
    (∀ i, i < meta.nTimeStamp →
      (epoch - meta.epochStart) / 3600 = meta.timeStamps.getD i 0 →
      getGribTimeIndexFromEpoch meta epoch = i) ∧
    (∀ i, i + 1 < meta.nTimeStamp →
      meta.timeStamps.getD i 0 < (epoch - meta.epochStart) / 3600 →
      (epoch - meta.epochStart) / 3600 < meta.timeStamps.getD (i + 1) 0 →
      ((meta.timeStamps.getD (i + 1) 0 - (epoch - meta.epochStart) / 3600 <
          (epoch - meta.epochStart) / 3600 - meta.timeStamps.getD i 0 →
        getGribTimeIndexFromEpoch meta epoch = i + 1) ∧
       ((epoch - meta.epochStart) / 3600 - meta.timeStamps.getD i 0 ≤
          meta.timeStamps.getD (i + 1) 0 - (epoch - meta.epochStart) / 3600 →
        getGribTimeIndexFromEpoch meta epoch = i))) := by
  refine ⟨?_, ?_, ?_, ?_⟩
  · intro hle
    have hp : findTimeAround meta.timeStamps meta.nTimeStamp
        ((epoch - meta.epochStart) / 3600) = (0, 0) := by
      by_cases hlt : (epoch - meta.epochStart) / 3600 < meta.timeStamps.getD 0 0
      · unfold findTimeAround
        rw [if_pos hlt]
      · have heq : (epoch - meta.epochStart) / 3600 = meta.timeStamps.getD 0 0 :=
          le_antisymm hle (not_lt.mp hlt)
        unfold findTimeAround
        rw [if_neg hlt]
        exact findTimeAroundAux_exact meta.timeStamps meta.nTimeStamp _ 0 hpos heq 0 0
          (by omega) (by omega) fun j hj hjn => absurd hjn (Nat.not_lt_zero j)
    rw [getGribTimeIndex_of_pair meta epoch 0 0 hp, ite_self]
  · intro hge
    have hne0 : ¬ ((epoch - meta.epochStart) / 3600 < meta.timeStamps.getD 0 0) := by
      have h0 : meta.timeStamps.getD 0 0 ≤
          meta.timeStamps.getD (meta.nTimeStamp - 1) 0 :=
        pairwise_getD_le _ hmono 0 (meta.nTimeStamp - 1) (by omega) (by omega)
      exact not_lt.mpr (le_trans h0 hge)
    rcases eq_or_lt_of_le hge with heq | hlt
    · have hp : findTimeAround meta.timeStamps meta.nTimeStamp
          ((epoch - meta.epochStart) / 3600) = (meta.nTimeStamp - 1, meta.nTimeStamp - 1) := by
        unfold findTimeAround
        rw [if_neg hne0]
        exact findTimeAroundAux_exact meta.timeStamps meta.nTimeStamp _
          (meta.nTimeStamp - 1) (by omega) heq.symm (meta.nTimeStamp - 1) 0
          (by omega) (by omega) fun j hj hjn => by
            rw [← heq]
            exact pairwise_getD_lt _ hmono j (meta.nTimeStamp - 1) hjn (by omega)
      rw [getGribTimeIndex_of_pair meta epoch _ _ hp, ite_self]
    · have hp : findTimeAround meta.timeStamps meta.nTimeStamp
          ((epoch - meta.epochStart) / 3600) = (meta.nTimeStamp - 1, meta.nTimeStamp - 1) := by
        unfold findTimeAround
        rw [if_neg hne0]
        exact findTimeAroundAux_all_lt meta.timeStamps meta.nTimeStamp _
          meta.nTimeStamp 0 (by omega) fun j hj hjn =>
            lt_of_le_of_lt
              (pairwise_getD_le _ hmono j (meta.nTimeStamp - 1) (by omega) (by omega)) hlt
      rw [getGribTimeIndex_of_pair meta epoch _ _ hp, ite_self]
  · intro i hi hdi
    have hne0 : ¬ ((epoch - meta.epochStart) / 3600 < meta.timeStamps.getD 0 0) := by
      rw [hdi]
      exact not_lt.mpr (pairwise_getD_le _ hmono 0 i (by omega) (by omega))
    have hp : findTimeAround meta.timeStamps meta.nTimeStamp
        ((epoch - meta.epochStart) / 3600) = (i, i) := by
      unfold findTimeAround
      rw [if_neg hne0]
      exact findTimeAroundAux_exact meta.timeStamps meta.nTimeStamp _ i hi hdi i 0
        (by omega) (by omega) fun j hj hjn => by
          rw [hdi]
          exact pairwise_getD_lt _ hmono j i hjn (by omega)
    rw [getGribTimeIndex_of_pair meta epoch i i hp, ite_self]
  · intro i hi1 hlow hup
    have hne0 : ¬ ((epoch - meta.epochStart) / 3600 < meta.timeStamps.getD 0 0) := by
      have h0 : meta.timeStamps.getD 0 0 ≤ meta.timeStamps.getD i 0 :=
        pairwise_getD_le _ hmono 0 i (by omega) (by omega)
      exact not_lt.mpr (le_of_lt (lt_of_le_of_lt h0 hlow))
    have hp : findTimeAround meta.timeStamps meta.nTimeStamp
        ((epoch - meta.epochStart) / 3600) = (i, i + 1) := by
      unfold findTimeAround
      rw [if_neg hne0]
      have h := findTimeAroundAux_straddle meta.timeStamps meta.nTimeStamp _
        (i + 1) (by omega) hup (i + 1) 0 (by omega) (by omega) fun j hj hjn =>
          lt_of_le_of_lt (pairwise_getD_le _ hmono j i (by omega) (by omega)) hlow
      simpa using h
    rw [getGribTimeIndex_of_pair meta epoch i (i + 1) hp]
    constructor
    · intro hcl
      rw [if_pos hcl]
    · intro hcl
      rw [if_neg (not_lt.mpr hcl)]

/-- C1 counterexample: with steps `[0, 2]` a query exactly midway (1 hour
after the run start, i.e. epoch 3600 with run start 0) resolves to index 0 —
the EARLIER index — whereas the claim's tie-break demands index 1. -/
theorem grib_time_tie_prefers_earlier_cex :
    getGribTimeIndexFromEpoch metaTie 3600 = 0 := by
  have hp : findTimeAround metaTie.timeStamps metaTie.nTimeStamp
      ((3600 - metaTie.epochStart) / 3600) = (0, 1) := by
    show findTimeAround [0, 2] 2 ((3600 - 0) / 3600) = (0, 1)
    unfold findTimeAround
    rw [if_neg (by norm_num [List.getD])]
    rw [findTimeAroundAux, dif_pos (by norm_num), if_neg (by norm_num [List.getD]),
        if_neg (by norm_num [List.getD])]
    rw [findTimeAroundAux, dif_pos (by norm_num), if_neg (by norm_num [List.getD]),
        if_pos (by norm_num [List.getD])]
  rw [getGribTimeIndex_of_pair metaTie 3600 0 1 hp]
  rw [if_neg (by show ¬ ((metaTie.timeStamps.getD 1 0 - _ : ℚ) < _); norm_num [metaTie, List.getD])]

/-- C1 witness: steps `[0, 3, 6, 9]`, query at `E + 4*3600` with run start
`E = 0` resolves to index 1 (step 3, closer than step 6), via the straddling
case of the resolution theorem. -/
theorem grib_time_index_resolution_witness :
    getGribTimeIndexFromEpoch meta0369 14400 = 1 :=
  ((grib_time_index_resolution meta0369 14400 rfl (by decide) (by decide)).2.2.2 1
    (by decide)
    (by norm_num [meta0369, List.getD])
    (by norm_num [meta0369, List.getD])).2
    (by norm_num [meta0369, List.getD])
